import Mathlib

/-
Verification of the analytical core of the london-cycles-db repository.

The development shallowly embeds three parts of the code base:

1. The time-series regularizer of src/animate.py (interpolate_bikepoint
   together with the upstream proportion computation): timestamps are
   modelled as integers counting minutes on the local London timeline
   (the upstream processing floors every timestamp to a whole 15-minute
   mark, so whole minutes lose nothing), and numeric cell values are
   modelled as exact rationals; a missing cell (NaN produced by an empty
   resample bin) is modelled as Option.none.  The pandas calls are
   embedded one for one: resample("15min") bins the index from the
   15-minute floor of the earliest timestamp to the 15-minute floor of
   the latest one (left-closed bins, left labels, origin aligned to
   midnight, which is itself a 15-minute mark), median() takes the
   per-field median of each bin (none for an empty bin), and
   interpolate() performs positional linear interpolation per column,
   leaving leading gaps unfilled and padding trailing gaps with the
   last valid value, as pandas does with the default
   method="linear", limit_direction="forward".

2. The daylight gradient sampler of src/animate.py (get_sun_intervals,
   get_colors_by_time).  Instants are integers counting microseconds
   from the midnight that starts the queried day; the astral library is
   an external collaborator, so the five solar event instants enter as a
   function parameter.  Colors are HSL triples of rationals as stored by
   the colour library; colour.range_to yields its begin color first and
   raises on a zero step count, which the embedding models with Option.
   Python list indexing past the end (an IndexError) is likewise
   modelled with Option.

3. The ingestion helpers of src/dataset.py (get_number, get_stations):
   a Python unpacking [nb] = [...] succeeds only for a singleton list,
   and int(...) on a non-numeric string raises; both failure modes are
   modelled with Option.none.
-/

namespace LondonCycles

/-! ### Time-series regularizer: data model -/

/-- One raw observation row of the concatenated dataframe, after the
upstream transformation of src/animate.py lines 39-42: the numeric
columns lat, lon, bikes, empty_docks, docks and the derived proportion.
The place_id column is a string column and is silently dropped by the
pandas median aggregation, so it does not appear here; the query_time
column is the key of the row. -/
structure Obs where
  lat : ℚ
  lon : ℚ
  bikes : ℚ
  empty_docks : ℚ
  docks : ℚ
  proportion : ℚ
deriving DecidableEq

/-- A resampled row: each numeric cell may be missing (pandas NaN),
which happens exactly for the cells of an empty resample bin before
interpolation, and for cells interpolation could not resolve after. -/
structure RowO where
  lat : Option ℚ
  lon : Option ℚ
  bikes : Option ℚ
  empty_docks : Option ℚ
  docks : Option ℚ
  proportion : Option ℚ
deriving DecidableEq

/-- Build an observation the way src/animate.py line 42 does:
proportion = (docks - empty_docks) / docks.  (With docks = 0 the code
produces a float NaN or infinity; the embedding covers the finite
inputs, in line with the data model of the spec, which requires a
positive total-dock count.) -/
def mkObs (lat lon bikes empty docks : ℚ) : Obs :=
  ⟨lat, lon, bikes, empty, docks, (docks - empty) / docks⟩

/-- The 15-minute floor of a timestamp, as dt.floor("15min") and the
left bin edges of resample("15min") compute it (integer division on ℤ
is Euclidean division, which floors for the positive divisor 15). -/
def floor15 (t : Int) : Int := 15 * (t / 15)

/-- The 15-minute ceiling of a timestamp (used only to state the
ceiling-based index bound that the specification asserts). -/
def ceil15 (t : Int) : Int := -(15 * (-t / 15))

/-- Minimum of a nonempty collection of timestamps, first element given
apart, as DataFrame.index.min() sees it. -/
def minTime (t : Int) : List Int → Int
  | [] => t
  | y :: ys => minTime (min t y) ys

/-- Maximum of a nonempty collection of timestamps. -/
def maxTime (t : Int) : List Int → Int
  | [] => t
  | y :: ys => maxTime (max t y) ys

/-- The left bin labels of resample("15min"): n consecutive 15-minute
marks starting at t0. -/
def gridFrom (t0 : Int) : Nat → List Int
  | 0 => []
  | n + 1 => t0 :: gridFrom (t0 + 15) n

/-- How many bins resample("15min") produces for a span from tmin to
tmax: one bin per 15-minute mark from floor15 tmin to floor15 tmax. -/
def nSlots (tmin tmax : Int) : Nat := (floor15 tmax - floor15 tmin).toNat / 15 + 1

/-- The observations that fall into the left-closed bin [t, t+15). -/
def binOf (rows : List (Int × Obs)) (t : Int) : List Obs :=
  (rows.filter (fun r => decide (t ≤ r.1 ∧ r.1 < t + 15))).map Prod.snd

/-- Insertion into a sorted list, the sorting step of the median. -/
def insertSorted (x : ℚ) : List ℚ → List ℚ
  | [] => [x]
  | y :: ys => if x ≤ y then x :: y :: ys else y :: insertSorted x ys

/-- Sort a list of rationals (insertion sort). -/
def sortQ (xs : List ℚ) : List ℚ := xs.foldr insertSorted []

/-- The statistical median that DataFrame.median computes per column of
a bin: the middle element of the sorted values for an odd count, the
mean of the two middle elements for an even count, and NaN (none) for
an empty bin. -/
def medianQ (xs : List ℚ) : Option ℚ :=
  let s := sortQ xs
  let n := s.length
  if n = 0 then none
  else if n % 2 = 1 then s[n / 2]?
  else
    match s[n / 2 - 1]?, s[n / 2]? with
    | some a, some b => some ((a + b) / 2)
    | _, _ => none

/-- The per-field median row of one resample bin. -/
def medRow (bin : List Obs) : RowO :=
  { lat := medianQ (bin.map Obs.lat)
    lon := medianQ (bin.map Obs.lon)
    bikes := medianQ (bin.map Obs.bikes)
    empty_docks := medianQ (bin.map Obs.empty_docks)
    docks := medianQ (bin.map Obs.docks)
    proportion := medianQ (bin.map Obs.proportion) }

/-- resample("15min").median() of src/animate.py line 127: the index
runs in 15-minute steps through the bins from the bin of the earliest
timestamp to the bin of the latest one; each bin is aggregated by the
per-field median, an empty bin yielding a row of NaN. -/
def resample_median (rows : List (Int × Obs)) : List (Int × RowO) :=
  match rows with
  | [] => []
  | (t, _) :: rest =>
    let tmin := minTime t (rest.map Prod.fst)
    let tmax := maxTime t (rest.map Prod.fst)
    (gridFrom (floor15 tmin) (nSlots tmin tmax)).map fun s => (s, medRow (binOf rows s))

/-- The nearest valid cell strictly below position k of a column. -/
def findPrev (col : List (Option ℚ)) : Nat → Option (Nat × ℚ)
  | 0 => none
  | k + 1 =>
    match col[k]? with
    | some (some v) => some (k, v)
    | _ => findPrev col k

/-- Scan of the column positions k, k+1, ... for a valid cell; the
fuel argument bounds the scan by the column length, so running out of
fuel and running off the end of the column coincide. -/
def findNextFuel (col : List (Option ℚ)) : Nat → Nat → Option (Nat × ℚ)
  | 0, _ => none
  | fuel + 1, k =>
    match col[k]? with
    | some (some v) => some (k, v)
    | some none => findNextFuel col fuel (k + 1)
    | none => none

/-- The nearest valid cell at or above position k of a column. -/
def findNext (col : List (Option ℚ)) (k : Nat) : Option (Nat × ℚ) :=
  findNextFuel col (col.length - k) k

/-- One cell of DataFrame.interpolate() with the default linear method
and forward limit direction: a valid cell stays, a gap between two
valid cells is filled by positional linear interpolation, a gap after
the last valid cell is padded with that value, and a gap before the
first valid cell stays missing. -/
def interpCell (col : List (Option ℚ)) (k : Nat) : Option ℚ :=
  match col[k]? with
  | some (some v) => some v
  | _ =>
    match findPrev col k, findNext col (k + 1) with
    | some (i, a), some (j, b) => some (a + (b - a) * (((k : ℚ) - (i : ℚ)) / ((j : ℚ) - (i : ℚ))))
    | some (_, a), none => some a
    | none, _ => none

/-- The six numeric columns of a resampled table. -/
structure Cols where
  lat : List (Option ℚ)
  lon : List (Option ℚ)
  bikes : List (Option ℚ)
  empty_docks : List (Option ℚ)
  docks : List (Option ℚ)
  proportion : List (Option ℚ)

/-- Column extraction of a resampled table. -/
def colsOf (tbl : List (Int × RowO)) : Cols :=
  { lat := tbl.map fun r => r.2.lat
    lon := tbl.map fun r => r.2.lon
    bikes := tbl.map fun r => r.2.bikes
    empty_docks := tbl.map fun r => r.2.empty_docks
    docks := tbl.map fun r => r.2.docks
    proportion := tbl.map fun r => r.2.proportion }

/-- Row k of the interpolated table: every column interpolated at
position k. -/
def interpRow (c : Cols) (k : Nat) : RowO :=
  { lat := interpCell c.lat k
    lon := interpCell c.lon k
    bikes := interpCell c.bikes k
    empty_docks := interpCell c.empty_docks k
    docks := interpCell c.docks k
    proportion := interpCell c.proportion k }

/-- Walk the table rows in order, keeping each timestamp and replacing
the cells by their interpolated values; k is the position of the
current row. -/
def interpolate_go (c : Cols) : Nat → List (Int × RowO) → List (Int × RowO)
  | _, [] => []
  | k, r :: rs => (r.1, interpRow c k) :: interpolate_go c (k + 1) rs

/-- DataFrame.interpolate() of src/animate.py line 128, applied per
numeric column; the timestamp index is untouched. -/
def interpolate_df (tbl : List (Int × RowO)) : List (Int × RowO) :=
  interpolate_go (colsOf tbl) 0 tbl

/-- interpolate_bikepoint of src/animate.py lines 124-129: set the time
index, resample to 15 minutes with the median, interpolate, and return
the table with the time index back as a column. -/
def interpolate_bikepoint (rows : List (Int × Obs)) : List (Int × RowO) :=
  interpolate_df (resample_median rows)

/-- A row all of whose numeric cells are present (no NaN). -/
def RowO.populated (r : RowO) : Prop :=
  r.lat.isSome ∧ r.lon.isSome ∧ r.bikes.isSome ∧
    r.empty_docks.isSome ∧ r.docks.isSome ∧ r.proportion.isSome

instance (r : RowO) : Decidable r.populated := by
  unfold RowO.populated; infer_instance

/-! ### Daylight gradient sampler -/

/-- A color as the colour library stores it: an HSL triple.  The
library computes with floats; the embedding computes with exact
rationals, which agrees with it on every value the claims inspect
(list lengths and the untouched endpoint colors of a scale). -/
structure Color where
  h : ℚ
  s : ℚ
  l : ℚ
deriving DecidableEq

/-- Color("#5D5D5E") of the fixed palette: rgb (93, 94, 94)/255
converted to HSL.  This is the dark night-time reference color the
gradient starts and ends with. -/
def darkness : Color := ⟨2/3, 1/187, 187/510⟩

/-- Color("#7f7f7f") of the fixed palette. -/
def night : Color := ⟨0, 0, 127/255⟩

/-- Color("#a2a2a2") of the fixed palette. -/
def mid : Color := ⟨0, 0, 162/255⟩

/-- Color("#c7c7c7") of the fixed palette, the full-daylight color. -/
def noon : Color := ⟨0, 0, 199/255⟩

/-- One sample of colour.color_scale: begin + step * r on each HSL
component, where step is the per-step difference (zero when the scale
has a single sample). -/
def colorAt (b e : Color) (nb : Nat) (r : Nat) : Color :=
  ⟨b.h + (if nb = 0 then 0 else (e.h - b.h) / (nb : ℚ)) * (r : ℚ),
   b.s + (if nb = 0 then 0 else (e.s - b.s) / (nb : ℚ)) * (r : ℚ),
   b.l + (if nb = 0 then 0 else (e.l - b.l) / (nb : ℚ)) * (r : ℚ)⟩

/-- colour.Color.range_to(other, steps): the list of steps colors from
self to other inclusive.  For steps = 0 the library raises a
ValueError, modelled as none. -/
def rangeToOpt (b e : Color) (steps : Nat) : Option (List Color) :=
  if steps = 0 then none
  else some ((List.range steps).map (colorAt b e (steps - 1)))

/-- The five solar event instants astral computes for one calendar date
at the fixed London location, in microseconds from the midnight that
starts the date.  astral is an external collaborator, so these values
are a parameter of the embedding. -/
structure SunEvents where
  dawn : Int
  sunrise : Int
  noon : Int
  sunset : Int
  dusk : Int

/-- get_sun_intervals of src/animate.py lines 171-183: the beginning of
the day, the five solar events, and the beginning of the next day.
Instants count microseconds from the beginning of the day, so the day
boundaries are 0 and 86400000000. -/
def get_sun_intervals (ev : SunEvents) : List Int :=
  [0, ev.dawn, ev.sunrise, ev.noon, ev.sunset, ev.dusk, 86400000000]

/-- The seconds component of a Python timedelta of d microseconds:
days are discarded (not total_seconds!) and microseconds truncated. -/
def tdSeconds (d : Int) : Nat := (d % 86400000000).toNat / 1000000

/-- math.ceil(delta.seconds / 60) for a timedelta of d microseconds. -/
def ceilMinutes (d : Int) : Nat := (tdSeconds d + 59) / 60

/-- The minutes list of get_colors_by_time line 200: the ceiling of the
minute duration of each of the six intervals between consecutive sun
instants. -/
def minutesOf (ev : SunEvents) : List Nat :=
  ((get_sun_intervals ev).zip (get_sun_intervals ev).tail).map fun p => ceilMinutes (p.2 - p.1)

/-- The sampled offsets range(0, 1441, 15) of line 219, in minutes from
the beginning of the day. -/
def sampleIdxs : List Nat := (List.range 97).map fun k => 15 * k

/-- The dict comprehension of line 219: look up colors[idx] for every
offset; an out-of-range index is an IndexError, modelled as none. -/
def sampleEvery (colors : List Color) : List Nat → Option (List (Nat × Color))
  | [] => some []
  | i :: is =>
    match colors[i]?, sampleEvery colors is with
    | some c, some rest => some ((i, c) :: rest)
    | _, _ => none

/-- The body of get_colors_by_time of src/animate.py lines 195-220
after the date has been normalized: compute the six interval durations
in minutes, chain the six color scales
darkness-night-mid-noon-mid-night-darkness, and sample the chained
array every 15 minutes from minute 0 through minute 1440. -/
def get_colors_core (ev : SunEvents) : Option (List (Nat × Color)) :=
  match minutesOf ev with
  | [m0, m1, m2, m3, m4, m5] => do
    let c0 ← rangeToOpt darkness night m0
    let c1 ← rangeToOpt night mid m1
    let c2 ← rangeToOpt mid noon m2
    let c3 ← rangeToOpt noon mid m3
    let c4 ← rangeToOpt mid night m4
    let c5 ← rangeToOpt night darkness m5
    sampleEvery (c0 ++ c1 ++ c2 ++ c3 ++ c4 ++ c5) sampleIdxs
  | _ => none

/-- A Python datetime as get_colors_by_time receives it: calendar
fields, time-of-day fields, and an optional tzinfo tag. -/
structure PyDatetime where
  year : Int
  month : Nat
  day : Nat
  hour : Nat
  minute : Nat
  second : Nat
  microsecond : Nat
  tz : Option String
deriving DecidableEq

/-- Line 196 of src/animate.py: date.replace(minute=0, hour=0,
second=0, microsecond=0, tzinfo=london_tz), keeping only the calendar
day. -/
def replaceMidnightLondon (d : PyDatetime) : PyDatetime :=
  { d with hour := 0, minute := 0, second := 0, microsecond := 0, tz := some "Europe/London" }

/-- get_colors_by_time of src/animate.py lines 195-220.  sunOf maps a
calendar day (year, month, day) to the solar events astral returns for
it; the resulting map is keyed by the minute offset from the normalized
midnight (the code keys by the instant date + offset, an injective
renaming). -/
def get_colors_by_time (sunOf : Int → Nat → Nat → SunEvents) (d : PyDatetime) :
    Option (List (Nat × Color)) :=
  let d0 := replaceMidnightLondon d
  get_colors_core (sunOf d0.year d0.month d0.day)

/-! ### Ingestion (src/dataset.py) -/

/-- One entry of a bike point additionalProperties list: a key and a
raw string value. -/
structure Property where
  key : String
  value : String
deriving DecidableEq

/-- One station as the TfL client returns it. -/
structure Place where
  id : String
  lat : ℚ
  lon : ℚ
  additionalProperties : List Property
deriving DecidableEq

/-- The numeric value of one decimal digit character. -/
def digitVal (c : Char) : Option Nat :=
  if c.isDigit then some (c.toNat - 48) else none

/-- The value of a nonempty string of decimal digits. -/
def digitsToNat (cs : List Char) : Option Nat :=
  if cs = [] then none
  else cs.foldl (fun acc c => acc.bind fun n => (digitVal c).map fun d => 10 * n + d) (some 0)

/-- Python int(s) on a string: surrounding whitespace is ignored, an
optional sign precedes the digits, and anything else raises ValueError
(modelled as none; digit-group underscores are not modelled). -/
def str_to_int (s : String) : Option Int :=
  match s.trim.data with
  | '-' :: cs => (digitsToNat cs).map fun n => -(n : Int)
  | '+' :: cs => (digitsToNat cs).map fun n => (n : Int)
  | cs => (digitsToNat cs).map fun n => (n : Int)

/-- The values of the properties carrying a given key. -/
def keyValues (props : List Property) (key : String) : List String :=
  (props.filter fun p => p.key == key).map Property.value

/-- get_number of src/dataset.py lines 13-15: the unpacking
[nb] = [prop.value for prop in additional_properties if prop.key == key]
succeeds only when exactly one property carries the key, and int(nb)
succeeds only on a numeric value; every other case raises, modelled as
none. -/
def get_number (additional_properties : List Property) (key : String) : Option Int :=
  match keyValues additional_properties key with
  | [nb] => str_to_int nb
  | _ => none

/-- One output row of get_stations: query time, place id, lat, lon,
bikes, empty docks, docks. -/
abbrev StationRow : Type := String × String × ℚ × ℚ × Int × Int × Int

/-- get_stations of src/dataset.py lines 18-26: for every place extract
the three properties NbBikes, NbEmptyDocks and NbDocks; an exception
for any place aborts the whole call (none). -/
def get_stations (t : String) (places : List Place) : Option (List StationRow) :=
  match places with
  | [] => some []
  | p :: rest =>
    match get_number p.additionalProperties "NbBikes",
        get_number p.additionalProperties "NbEmptyDocks",
        get_number p.additionalProperties "NbDocks" with
    | some bikes, some eds, some docks =>
      (get_stations t rest).map fun rows => (t, p.id, p.lat, p.lon, bikes, eds, docks) :: rows
    | _, _, _ => none

/-! ### Helper lemmas: the resample grid -/

theorem gridFrom_chain (n : Nat) : ∀ t0 : Int, List.Chain' (fun a b => b = a + 15) (gridFrom t0 n) := by
  induction n with
  | zero => intro t0; simp [gridFrom]
  | succ m ih =>
    intro t0
    rw [gridFrom, List.chain'_cons']
    refine ⟨?_, ih (t0 + 15)⟩
    intro y hy
    cases m with
    | zero => simp [gridFrom] at hy
    | succ k =>
      rw [gridFrom] at hy
      simp only [List.head?_cons, Option.mem_def, Option.some.injEq] at hy
      omega

theorem gridFrom_lt (n : Nat) : ∀ t0 x : Int, x < t0 → ∀ y ∈ gridFrom t0 n, x < y := by
  induction n with
  | zero => intro t0 x _ y hy; simp [gridFrom] at hy
  | succ m ih =>
    intro t0 x hx y hy
    rw [gridFrom] at hy
    rcases List.mem_cons.mp hy with rfl | hy
    · exact hx
    · exact ih (t0 + 15) x (by omega) y hy

theorem gridFrom_pairwise (n : Nat) : ∀ t0 : Int, (gridFrom t0 n).Pairwise (· < ·) := by
  induction n with
  | zero => intro t0; simp [gridFrom]
  | succ m ih =>
    intro t0
    rw [gridFrom]
    exact List.pairwise_cons.mpr
      ⟨fun y hy => gridFrom_lt m (t0 + 15) t0 (by omega) y hy, ih (t0 + 15)⟩

theorem gridFrom_head (t0 : Int) (n : Nat) : (gridFrom t0 (n + 1)).head? = some t0 := rfl

theorem gridFrom_getLast (n : Nat) :
    ∀ t0 : Int, (gridFrom t0 (n + 1)).getLast? = some (t0 + 15 * (n : Int)) := by
  induction n with
  | zero => intro t0; simp [gridFrom]
  | succ m ih =>
    intro t0
    have h2 : gridFrom t0 (m + 1 + 1) = t0 :: (t0 + 15) :: gridFrom (t0 + 15 + 15) (m) := rfl
    have h3 : gridFrom (t0 + 15) (m + 1) = (t0 + 15) :: gridFrom (t0 + 15 + 15) (m) := rfl
    rw [h2, List.getLast?_cons_cons, ← h3, ih (t0 + 15)]
    congr 1
    push_cast
    ring

/-! ### Helper lemmas: the index extremes and 15-minute floor -/

theorem minTime_le_self : ∀ (ts : List Int) (t : Int), minTime t ts ≤ t := by
  intro ts
  induction ts with
  | nil => intro t; exact le_refl t
  | cons y ys ih =>
    intro t
    exact le_trans (ih (min t y)) (min_le_left t y)

theorem le_maxTime_self : ∀ (ts : List Int) (t : Int), t ≤ maxTime t ts := by
  intro ts
  induction ts with
  | nil => intro t; exact le_refl t
  | cons y ys ih =>
    intro t
    exact le_trans (le_max_left t y) (ih (max t y))

theorem minTime_mem : ∀ (ts : List Int) (t : Int), minTime t ts = t ∨ minTime t ts ∈ ts := by
  intro ts
  induction ts with
  | nil => intro t; left; rfl
  | cons y ys ih =>
    intro t
    rcases ih (min t y) with h | h
    · rcases min_choice t y with hm | hm
      · left; rw [minTime, h, hm]
      · right; rw [minTime, h, hm]; exact List.mem_cons_self y ys
    · right; exact List.mem_cons_of_mem y h

theorem maxTime_mem : ∀ (ts : List Int) (t : Int), maxTime t ts = t ∨ maxTime t ts ∈ ts := by
  intro ts
  induction ts with
  | nil => intro t; left; rfl
  | cons y ys ih =>
    intro t
    rcases ih (max t y) with h | h
    · rcases max_choice t y with hm | hm
      · left; rw [maxTime, h, hm]
      · right; rw [maxTime, h, hm]; exact List.mem_cons_self y ys
    · right; exact List.mem_cons_of_mem y h

theorem floor15_le (t : Int) : floor15 t ≤ t := by
  have h := Int.ediv_add_emod t 15
  have h2 := Int.emod_nonneg t (by norm_num : (15 : Int) ≠ 0)
  unfold floor15
  omega

theorem lt_floor15_add (t : Int) : t < floor15 t + 15 := by
  have h := Int.ediv_add_emod t 15
  have h2 := Int.emod_lt_of_pos t (by norm_num : (0 : Int) < 15)
  unfold floor15
  omega

theorem floor15_grid_last (tmin tmax : Int) (h : tmin ≤ tmax) :
    floor15 tmin + 15 * (((floor15 tmax - floor15 tmin).toNat / 15 : Nat) : Int) = floor15 tmax := by
  have hle : tmin / 15 ≤ tmax / 15 := Int.ediv_le_ediv (by norm_num) h
  unfold floor15
  omega

/-! ### Helper lemmas: timestamps survive the pipeline unchanged -/

theorem interpolate_go_map_fst (c : Cols) :
    ∀ (l : List (Int × RowO)) (k : Nat),
      (interpolate_go c k l).map Prod.fst = l.map Prod.fst := by
  intro l
  induction l with
  | nil => intro k; rfl
  | cons r rs ih => intro k; simp [interpolate_go, ih (k + 1)]

theorem interp_times (tbl : List (Int × RowO)) :
    (interpolate_df tbl).map Prod.fst = tbl.map Prod.fst :=
  interpolate_go_map_fst (colsOf tbl) tbl 0

theorem resample_times (t : Int) (o : Obs) (rest : List (Int × Obs)) :
    (resample_median ((t, o) :: rest)).map Prod.fst =
      gridFrom (floor15 (minTime t (rest.map Prod.fst)))
        (nSlots (minTime t (rest.map Prod.fst)) (maxTime t (rest.map Prod.fst))) := by
  simp only [resample_median, List.map_map]
  exact List.map_id _

theorem bikepoint_times (t : Int) (o : Obs) (rest : List (Int × Obs)) :
    (interpolate_bikepoint ((t, o) :: rest)).map Prod.fst =
      gridFrom (floor15 (minTime t (rest.map Prod.fst)))
        (nSlots (minTime t (rest.map Prod.fst)) (maxTime t (rest.map Prod.fst))) := by
  unfold interpolate_bikepoint
  rw [interp_times, resample_times]

/-! ### Helper lemmas: populated bins and medians -/

theorem mem_binOf {rows : List (Int × Obs)} {r : Int × Obs} {t : Int}
    (hr : r ∈ rows) (h1 : t ≤ r.1) (h2 : r.1 < t + 15) : r.2 ∈ binOf rows t := by
  unfold binOf
  refine List.mem_map.mpr ⟨r, List.mem_filter.mpr ⟨hr, ?_⟩, rfl⟩
  simpa using ⟨h1, h2⟩

theorem insertSorted_length (x : ℚ) : ∀ l : List ℚ, (insertSorted x l).length = l.length + 1 := by
  intro l
  induction l with
  | nil => rfl
  | cons y ys ih =>
    rw [insertSorted]
    split
    · rfl
    · simp [ih]

theorem sortQ_length (xs : List ℚ) : (sortQ xs).length = xs.length := by
  induction xs with
  | nil => rfl
  | cons x xs ih =>
    show (insertSorted x (sortQ xs)).length = xs.length + 1
    rw [insertSorted_length, ih]

theorem medianQ_isSome {xs : List ℚ} (h : xs ≠ []) : (medianQ xs).isSome := by
  have hl : (sortQ xs).length = xs.length := sortQ_length xs
  have hn : 0 < xs.length := List.length_pos.mpr h
  rw [medianQ]
  simp only [hl]
  rw [if_neg (by omega)]
  split
  · rw [List.getElem?_eq_getElem (by omega)]
    rfl
  · rw [List.getElem?_eq_getElem (by omega), List.getElem?_eq_getElem (by omega)]
    rfl

theorem medRow_populated {bin : List Obs} (h : bin ≠ []) : (medRow bin).populated := by
  have hm : ∀ f : Obs → ℚ, (medianQ (bin.map f)).isSome := by
    intro f
    exact medianQ_isSome (by simpa using h)
  exact ⟨hm _, hm _, hm _, hm _, hm _, hm _⟩

/-! ### Helper lemmas: interpolation resolves every internal gap -/

theorem findPrev_isSome {col : List (Option ℚ)} {i : Nat} {v : ℚ}
    (hi : col[i]? = some (some v)) : ∀ k : Nat, i < k → (findPrev col k).isSome := by
  intro k
  induction k with
  | zero => intro h; omega
  | succ m ih =>
    intro h
    rw [findPrev]
    rcases hm : col[m]? with _ | o
    · rcases Nat.lt_succ_iff_lt_or_eq.mp h with h2 | rfl
      · exact ih h2
      · rw [hi] at hm; cases hm
    · rcases o with _ | w
      · rcases Nat.lt_succ_iff_lt_or_eq.mp h with h2 | rfl
        · exact ih h2
        · rw [hi] at hm; cases hm
      · rfl

theorem interpCell_isSome {col : List (Option ℚ)} {v : ℚ}
    (h0 : col[0]? = some (some v)) {k : Nat} (hk : k < col.length) :
    (interpCell col k).isSome := by
  rw [interpCell]
  rcases hc : col[k]? with _ | o
  · rw [List.getElem?_eq_getElem hk] at hc; cases hc
  · rcases o with _ | w
    · have hk0 : 0 < k := by
        rcases Nat.eq_zero_or_pos k with rfl | h
        · rw [h0] at hc; cases hc
        · exact h
      have hp : (findPrev col k).isSome := findPrev_isSome h0 k hk0
      rcases hfp : findPrev col k with _ | pv
      · rw [hfp] at hp; cases hp
      · rcases hfn : findNext col (k + 1) with _ | nv
        · simp
        · simp
    · rfl

theorem interpolate_go_mem (c : Cols) :
    ∀ (l : List (Int × RowO)) (k : Nat) (r : Int × RowO),
      r ∈ interpolate_go c k l → ∃ j : Nat, j < k + l.length ∧ r.2 = interpRow c j := by
  intro l
  induction l with
  | nil => intro k r hr; cases hr
  | cons x xs ih =>
    intro k r hr
    rcases List.mem_cons.mp hr with rfl | hr
    · exact ⟨k, by simp, rfl⟩
    · obtain ⟨j, hj, hrj⟩ := ih (k + 1) r hr
      exact ⟨j, by simp at hj ⊢; omega, hrj⟩

theorem interp_df_populated {tbl : List (Int × RowO)} {hd : Int × RowO}
    (hh : tbl.head? = some hd) (hp : hd.2.populated) :
    ∀ r ∈ interpolate_df tbl, r.2.populated := by
  intro r hr
  obtain ⟨j, hj, hrj⟩ := interpolate_go_mem (colsOf tbl) tbl 0 r hr
  rw [hrj]
  have hd0 : tbl[0]? = some hd := by
    rw [← List.head?_eq_getElem?]; exact hh
  obtain ⟨v1, v2, v3, v4, v5, v6⟩ := hp
  have hcol : ∀ (f : RowO → Option ℚ), (f hd.2).isSome →
      (interpCell (tbl.map fun r => f r.2) j).isSome := by
    intro f hf
    obtain ⟨w, hw⟩ := Option.isSome_iff_exists.mp hf
    refine interpCell_isSome (v := w) ?_ (by simpa using by omega)
    rw [List.getElem?_map, hd0]
    simp [hw]
  exact ⟨hcol _ v1, hcol _ v2, hcol _ v3, hcol _ v4, hcol _ v5, hcol _ v6⟩

/-! ### Helper lemmas: the first and last resampled rows -/

theorem resample_head (t : Int) (o : Obs) (rest : List (Int × Obs)) :
    (resample_median ((t, o) :: rest)).head? =
      some (floor15 (minTime t (rest.map Prod.fst)),
        medRow (binOf ((t, o) :: rest) (floor15 (minTime t (rest.map Prod.fst))))) := by
  simp only [resample_median, nSlots, List.head?_map, gridFrom_head]
  rfl

theorem resample_getLast (t : Int) (o : Obs) (rest : List (Int × Obs)) :
    (resample_median ((t, o) :: rest)).getLast? =
      some (floor15 (maxTime t (rest.map Prod.fst)),
        medRow (binOf ((t, o) :: rest) (floor15 (maxTime t (rest.map Prod.fst))))) := by
  have h : minTime t (rest.map Prod.fst) ≤ maxTime t (rest.map Prod.fst) :=
    le_trans (minTime_le_self _ t) (le_maxTime_self _ t)
  simp only [resample_median, nSlots, List.getLast?_map, gridFrom_getLast]
  rw [floor15_grid_last _ _ h]
  rfl

theorem exists_row_at_min (t : Int) (o : Obs) (rest : List (Int × Obs)) :
    ∃ r ∈ (t, o) :: rest, r.1 = minTime t (rest.map Prod.fst) := by
  rcases minTime_mem (rest.map Prod.fst) t with h | h
  · exact ⟨(t, o), List.mem_cons_self _ _, h.symm⟩
  · obtain ⟨r, hr, hr1⟩ := List.mem_map.mp h
    exact ⟨r, List.mem_cons_of_mem _ hr, hr1⟩

theorem exists_row_at_max (t : Int) (o : Obs) (rest : List (Int × Obs)) :
    ∃ r ∈ (t, o) :: rest, r.1 = maxTime t (rest.map Prod.fst) := by
  rcases maxTime_mem (rest.map Prod.fst) t with h | h
  · exact ⟨(t, o), List.mem_cons_self _ _, h.symm⟩
  · obtain ⟨r, hr, hr1⟩ := List.mem_map.mp h
    exact ⟨r, List.mem_cons_of_mem _ hr, hr1⟩

theorem bin_at_floor_ne_nil {rows : List (Int × Obs)} {u : Int}
    (h : ∃ r ∈ rows, r.1 = u) : binOf rows (floor15 u) ≠ [] := by
  obtain ⟨r, hr, hru⟩ := h
  refine List.ne_nil_of_mem (mem_binOf hr ?_ ?_)
  · rw [hru]; exact floor15_le u
  · rw [hru]; exact lt_floor15_add u

/-! ### The regularizer claims -/

/-- C2.  For every non-empty per-station input, the regularized series
has pairwise distinct, strictly increasing timestamps, and every two
consecutive timestamps differ by exactly 15 minutes. -/
theorem c2_series_cadence (p : Int × Obs) (rest : List (Int × Obs)) :
    (((interpolate_bikepoint (p :: rest)).map Prod.fst).Chain' fun a b => b = a + 15)
    ∧ ((interpolate_bikepoint (p :: rest)).map Prod.fst).Pairwise (· < ·)
    ∧ ((interpolate_bikepoint (p :: rest)).map Prod.fst).Nodup := by
  obtain ⟨t, o⟩ := p
  rw [bikepoint_times]
  exact ⟨gridFrom_chain _ _, gridFrom_pairwise _ _,
    (gridFrom_pairwise _ _).imp ne_of_lt⟩

/-- C3.  Leading and trailing gaps cannot occur: the first and the last
resampled slots always hold the median of actual observations, the
interpolated output keeps exactly the resampled timestamps (no row is
dropped), and every output row is fully populated, so the output
contains no zero-filled or extrapolated boundary rows and the exclusion
policy for slots lacking a neighbor holds vacuously. -/
theorem c3_no_boundary_extrapolation (p : Int × Obs) (rest : List (Int × Obs)) :
    (∃ r, (resample_median (p :: rest)).head? = some r ∧ r.2.populated)
    ∧ (∃ r, (resample_median (p :: rest)).getLast? = some r ∧ r.2.populated)
    ∧ (interpolate_bikepoint (p :: rest)).map Prod.fst
        = (resample_median (p :: rest)).map Prod.fst
    ∧ ∀ r ∈ interpolate_bikepoint (p :: rest), r.2.populated := by
  obtain ⟨t, o⟩ := p
  have hbmin := bin_at_floor_ne_nil (exists_row_at_min t o rest)
  have hbmax := bin_at_floor_ne_nil (exists_row_at_max t o rest)
  refine ⟨⟨_, resample_head t o rest, medRow_populated hbmin⟩,
    ⟨_, resample_getLast t o rest, medRow_populated hbmax⟩,
    interp_times _, ?_⟩
  exact interp_df_populated (resample_head t o rest) (medRow_populated hbmin)

/-- C4, as amended.  The resampled index starts at the 15-minute floor
of the earliest timestamp, ends at the 15-minute floor of the latest
timestamp, and advances in steps of exactly 15 minutes with no gaps. -/
theorem c4_index_floor_to_floor (p : Int × Obs) (rest : List (Int × Obs)) :
    ((interpolate_bikepoint (p :: rest)).map Prod.fst).head?
        = some (floor15 (minTime p.1 (rest.map Prod.fst)))
    ∧ ((interpolate_bikepoint (p :: rest)).map Prod.fst).getLast?
        = some (floor15 (maxTime p.1 (rest.map Prod.fst)))
    ∧ (((interpolate_bikepoint (p :: rest)).map Prod.fst).Chain' fun a b => b = a + 15) := by
  obtain ⟨t, o⟩ := p
  have h : minTime t (rest.map Prod.fst) ≤ maxTime t (rest.map Prod.fst) :=
    le_trans (minTime_le_self _ t) (le_maxTime_self _ t)
  rw [bikepoint_times]
  refine ⟨?_, ?_, gridFrom_chain _ _⟩
  · simp only [nSlots]
    exact gridFrom_head _ _
  · simp only [nSlots, gridFrom_getLast]
    rw [floor15_grid_last _ _ h]

/-- The index the specification asserts for the regularizer: from the
15-minute floor of the earliest timestamp to the 15-minute ceiling of
the latest timestamp, at the 15-minute cadence.  Written from the words
of the spec, to be compared with the index the code produces. -/
def specIndexC4 (rows : List (Int × Obs)) : List Int :=
  match rows with
  | [] => []
  | (t, _) :: rest =>
    gridFrom (floor15 (minTime t (rest.map Prod.fst)))
      ((ceil15 (maxTime t (rest.map Prod.fst)) - floor15 (minTime t (rest.map Prod.fst))).toNat / 15 + 1)

/-- A station with observations at minute 0 and minute 20 (an unaligned
latest timestamp). -/
def c4_input : List (Int × Obs) := [(0, mkObs 51 0 5 5 10), (20, mkObs 51 0 7 3 10)]

/-- C4 counterexample.  For the unaligned input, the code produces the
index [0, 15], ending at the floor of the latest timestamp, while the
claimed floor-to-ceiling index is [0, 15, 30]; the two differ. -/
theorem c4_counterexample_index_ceiling :
    (interpolate_bikepoint c4_input).map Prod.fst = [0, 15]
    ∧ specIndexC4 c4_input = [0, 15, 30]
    ∧ (interpolate_bikepoint c4_input).map Prod.fst ≠ specIndexC4 c4_input := by
  refine ⟨?_, by decide, ?_⟩ <;> decide

/-- The scenario input of C5: one station, observed at 01:15 (minute
75) with docks=10, empty_docks=5 and at 01:45 (minute 105) with
docks=10, empty_docks=3; the proportion column is computed upstream as
in src/animate.py line 42. -/
def c5_rows : List (Int × Obs) := [(75, mkObs 51.5 0 5 5 10), (105, mkObs 51.5 0 7 3 10)]

set_option maxHeartbeats 2000000 in
/-- C5.  The regularizer fills the empty 01:30 slot (minute 90) by
linear interpolation: empty_docks becomes 4 and the occupancy ratio
0.6. -/
theorem c5_interpolated_slot :
    ∃ row : RowO, (interpolate_bikepoint c5_rows)[1]? = some (90, row)
      ∧ row.empty_docks = some 4 ∧ row.proportion = some 0.6 := by
  have hev : interpolate_bikepoint c5_rows =
      [(75, ⟨some 51.5, some 0, some 5, some 5, some 10, some (1/2)⟩),
       (90, ⟨some 51.5, some 0, some 6, some 4, some 10, some (3/5)⟩),
       (105, ⟨some 51.5, some 0, some 7, some 3, some 10, some (7/10)⟩)] := by
    norm_num [interpolate_bikepoint, resample_median, minTime, maxTime, floor15, nSlots,
      gridFrom, binOf, medRow, medianQ, sortQ, insertSorted, interpolate_df, colsOf,
      interpRow, interpolate_go, interpCell, findPrev, findNext, findNextFuel, mkObs, c5_rows]
  exact ⟨⟨some 51.5, some 0, some 6, some 4, some 10, some (3/5)⟩,
    by rw [hev]; rfl, rfl, by norm_num⟩

/-- The scenario input of C6: one station with a single observation at
12:00 (minute 720), docks=5, empty_docks=0, bikes=5. -/
def c6_rows : List (Int × Obs) := [(720, mkObs 51.5 0 5 0 5)]

set_option maxHeartbeats 2000000 in
/-- C6.  For a single observation the regularizer outputs exactly one
row, at 12:00, with occupancy ratio 1, and the interpolation step
leaves the resampled table unchanged (no interpolation happens). -/
theorem c6_single_observation :
    interpolate_bikepoint c6_rows
        = [(720, ⟨some 51.5, some 0, some 5, some 0, some 5, some 1⟩)]
    ∧ interpolate_bikepoint c6_rows = resample_median c6_rows := by
  have hev : interpolate_bikepoint c6_rows
      = [(720, ⟨some 51.5, some 0, some 5, some 0, some 5, some 1⟩)] := by
    norm_num [interpolate_bikepoint, resample_median, minTime, maxTime, floor15, nSlots,
      gridFrom, binOf, medRow, medianQ, sortQ, insertSorted, interpolate_df, colsOf,
      interpRow, interpolate_go, interpCell, findPrev, findNext, findNextFuel, mkObs, c6_rows]
  have hres : resample_median c6_rows
      = [(720, ⟨some 51.5, some 0, some 5, some 0, some 5, some 1⟩)] := by
    norm_num [resample_median, minTime, maxTime, floor15, nSlots, gridFrom, binOf,
      medRow, medianQ, sortQ, insertSorted, mkObs, c6_rows]
  exact ⟨hev, by rw [hev, hres]⟩

/-! ### Helper lemmas: the daylight gradient -/

theorem colorAt_zero (b e : Color) (nb : Nat) : colorAt b e nb 0 = b := by
  cases b
  simp [colorAt]

theorem getElem?_zero_append {α : Type} {l1 l2 : List α} {a : α} (h : l1[0]? = some a) :
    (l1 ++ l2)[0]? = some a := by
  cases l1 with
  | nil => cases h
  | cons x xs => simpa using h

theorem rangeToOpt_pos (b e : Color) {n : Nat} (h : n ≠ 0) :
    ∃ l, rangeToOpt b e n = some l ∧ l.length = n ∧ l[0]? = some b := by
  refine ⟨(List.range n).map (colorAt b e (n - 1)), by rw [rangeToOpt, if_neg h], by simp, ?_⟩
  rw [List.getElem?_map, List.getElem?_range (by omega)]
  simp [colorAt_zero]

theorem sampleEvery_spec (colors : List Color) :
    ∀ is : List Nat, (∀ i ∈ is, i < colors.length) →
      ∃ l, sampleEvery colors is = some l ∧ l.map Prod.fst = is ∧
        l.head? = is.head?.bind fun i => (colors[i]?).map fun c => (i, c) := by
  intro is
  induction is with
  | nil => intro _; exact ⟨[], rfl, rfl, rfl⟩
  | cons i is ih =>
    intro h
    have hi : i < colors.length := h i (List.mem_cons_self _ _)
    obtain ⟨c, hc⟩ : ∃ c, colors[i]? = some c := by
      rw [List.getElem?_eq_getElem hi]; exact ⟨_, rfl⟩
    obtain ⟨l, hl, hfst, _⟩ := ih fun j hj => h j (List.mem_cons_of_mem _ hj)
    refine ⟨(i, c) :: l, ?_, by simp [hfst], by simp [hc]⟩
    rw [sampleEvery, hc, hl]

theorem sampleIdxs_le {i : Nat} (hi : i ∈ sampleIdxs) : i ≤ 1440 := by
  obtain ⟨k, hk, rfl⟩ := List.mem_map.mp hi
  have : k < 97 := List.mem_range.mp hk
  omega

theorem sampleIdxs_length : sampleIdxs.length = 97 := by
  simp [sampleIdxs]

theorem sampleIdxs_head : sampleIdxs.head? = some 0 := rfl

theorem get_colors_core_spec (ev : SunEvents)
    (h1 : ∀ m ∈ minutesOf ev, 1 ≤ m) (h2 : 1441 ≤ (minutesOf ev).sum) :
    ∃ l, get_colors_core ev = some l ∧ l.length = 97 ∧ l.map Prod.fst = sampleIdxs ∧
      l.head? = some (0, darkness) := by
  have hms : minutesOf ev =
      [ceilMinutes (ev.dawn - 0), ceilMinutes (ev.sunrise - ev.dawn),
       ceilMinutes (ev.noon - ev.sunrise), ceilMinutes (ev.sunset - ev.noon),
       ceilMinutes (ev.dusk - ev.sunset), ceilMinutes (86400000000 - ev.dusk)] := rfl
  rw [hms] at h1 h2
  have hb0 : 1 ≤ ceilMinutes (ev.dawn - 0) := h1 _ (by simp)
  have hb1 : 1 ≤ ceilMinutes (ev.sunrise - ev.dawn) := h1 _ (by simp)
  have hb2 : 1 ≤ ceilMinutes (ev.noon - ev.sunrise) := h1 _ (by simp)
  have hb3 : 1 ≤ ceilMinutes (ev.sunset - ev.noon) := h1 _ (by simp)
  have hb4 : 1 ≤ ceilMinutes (ev.dusk - ev.sunset) := h1 _ (by simp)
  have hb5 : 1 ≤ ceilMinutes (86400000000 - ev.dusk) := h1 _ (by simp)
  obtain ⟨l0, hl0, hn0, hh0⟩ := rangeToOpt_pos darkness night
    (n := ceilMinutes (ev.dawn - 0)) (by omega)
  obtain ⟨l1, hl1, hn1, _⟩ := rangeToOpt_pos night mid
    (n := ceilMinutes (ev.sunrise - ev.dawn)) (by omega)
  obtain ⟨l2, hl2, hn2, _⟩ := rangeToOpt_pos mid noon
    (n := ceilMinutes (ev.noon - ev.sunrise)) (by omega)
  obtain ⟨l3, hl3, hn3, _⟩ := rangeToOpt_pos noon mid
    (n := ceilMinutes (ev.sunset - ev.noon)) (by omega)
  obtain ⟨l4, hl4, hn4, _⟩ := rangeToOpt_pos mid night
    (n := ceilMinutes (ev.dusk - ev.sunset)) (by omega)
  obtain ⟨l5, hl5, hn5, _⟩ := rangeToOpt_pos night darkness
    (n := ceilMinutes (86400000000 - ev.dusk)) (by omega)
  have hlen : (l0 ++ l1 ++ l2 ++ l3 ++ l4 ++ l5).length =
      ceilMinutes (ev.dawn - 0) + ceilMinutes (ev.sunrise - ev.dawn) +
      ceilMinutes (ev.noon - ev.sunrise) + ceilMinutes (ev.sunset - ev.noon) +
      ceilMinutes (ev.dusk - ev.sunset) + ceilMinutes (86400000000 - ev.dusk) := by
    simp only [List.length_append, hn0, hn1, hn2, hn3, hn4, hn5]
  have hsum : 1441 ≤ (l0 ++ l1 ++ l2 ++ l3 ++ l4 ++ l5).length := by
    rw [hlen]
    simp only [List.sum_cons, List.sum_nil] at h2
    omega
  obtain ⟨l, hl, hfst, hhead⟩ := sampleEvery_spec (l0 ++ l1 ++ l2 ++ l3 ++ l4 ++ l5)
    sampleIdxs (fun i hi => by have := sampleIdxs_le hi; omega)
  refine ⟨l, ?_, ?_, hfst, ?_⟩
  · show (do
      let c0 ← rangeToOpt darkness night (ceilMinutes (ev.dawn - 0))
      let c1 ← rangeToOpt night mid (ceilMinutes (ev.sunrise - ev.dawn))
      let c2 ← rangeToOpt mid noon (ceilMinutes (ev.noon - ev.sunrise))
      let c3 ← rangeToOpt noon mid (ceilMinutes (ev.sunset - ev.noon))
      let c4 ← rangeToOpt mid night (ceilMinutes (ev.dusk - ev.sunset))
      let c5 ← rangeToOpt night darkness (ceilMinutes (86400000000 - ev.dusk))
      sampleEvery (c0 ++ c1 ++ c2 ++ c3 ++ c4 ++ c5) sampleIdxs) = some l
    rw [hl0, hl1, hl2, hl3, hl4, hl5]
    simpa using hl
  · have : l.length = sampleIdxs.length := by rw [← hfst]; simp
    rw [this, sampleIdxs_length]
  · rw [hhead, sampleIdxs_head]
    have h00 : (l0 ++ l1 ++ l2 ++ l3 ++ l4 ++ l5)[0]? = some darkness :=
      getElem?_zero_append (getElem?_zero_append (getElem?_zero_append
        (getElem?_zero_append (getElem?_zero_append hh0))))
    simp only [Option.some_bind]
    rw [h00]
    rfl

/-! ### The daylight gradient claims -/

/-- C1.  Whenever the seven solar boundaries decompose the day in the
standard way (every interval lasts at least a minute and the rounded-up
minute counts cover more than the 1440 sampled minutes, which is what
the spec calls the standard seven-boundary decomposition), the sampler
returns a map with exactly 97 entries, keyed by the 15-minute offsets 0
through 1440 from midnight of the date, i.e. from 00:00 of the date
through 00:00 of the next date inclusive. -/
theorem c1_gradient_97_entries (sunOf : Int → Nat → Nat → SunEvents) (d : PyDatetime)
    (h1 : ∀ m ∈ minutesOf (sunOf d.year d.month d.day), 1 ≤ m)
    (h2 : 1441 ≤ (minutesOf (sunOf d.year d.month d.day)).sum) :
    ∃ l, get_colors_by_time sunOf d = some l ∧ l.length = 97 ∧ l.map Prod.fst = sampleIdxs := by
  obtain ⟨l, hc, hlen, hfst, _⟩ := get_colors_core_spec (sunOf d.year d.month d.day) h1 h2
  exact ⟨l, hc, hlen, hfst⟩

/-- C7.  Under the same decomposition hypotheses, the first entry of
the gradient map, the one at offset 0 (00:00 of the date), is exactly
the dark night-time reference color of the fixed palette (the color the
code calls darkness, hex 5D5D5E, the first color of the
darkness-to-noon-to-darkness scale). -/
theorem c7_first_entry_night_color (sunOf : Int → Nat → Nat → SunEvents) (d : PyDatetime)
    (h1 : ∀ m ∈ minutesOf (sunOf d.year d.month d.day), 1 ≤ m)
    (h2 : 1441 ≤ (minutesOf (sunOf d.year d.month d.day)).sum) :
    ∃ l, get_colors_by_time sunOf d = some l ∧ l.head? = some (0, darkness) := by
  obtain ⟨l, hc, _, _, hhd⟩ := get_colors_core_spec (sunOf d.year d.month d.day) h1 h2
  exact ⟨l, hc, hhd⟩

/-- C9.  The sampler depends only on the calendar day of its argument:
two datetimes with the same year, month and day produce equal gradient
maps, whatever their hour, minute, second, microsecond or tzinfo, for
every solar-event oracle. -/
theorem c9_gradient_depends_only_on_day (sunOf : Int → Nat → Nat → SunEvents)
    (d1 d2 : PyDatetime)
    (hy : d1.year = d2.year) (hm : d1.month = d2.month) (hd : d1.day = d2.day) :
    get_colors_by_time sunOf d1 = get_colors_by_time sunOf d2 := by
  show get_colors_core (sunOf d1.year d1.month d1.day)
      = get_colors_core (sunOf d2.year d2.month d2.day)
  rw [hy, hm, hd]

/-- A realistic set of solar events for London (with sub-minute
fractions, as astral computes): dawn 04:30:12.345, sunrise 05:10:01.5,
solar noon 12:58:43.2, sunset 20:47:21.9, dusk 21:27:55.123, in
microseconds from midnight. -/
def sunWitness : SunEvents := ⟨16212345000, 18601500000, 46723200000, 74841900000, 77275123000⟩

/-- A solar-event oracle returning the witness events for every day. -/
def sunOfWitness : Int → Nat → Nat → SunEvents := fun _ _ _ => sunWitness

/-- 2022-05-07 13:30, naive. -/
def dateWitnessA : PyDatetime := ⟨2022, 5, 7, 13, 30, 0, 0, none⟩

/-- 2022-05-07 23:59:59.999999, tagged UTC: same calendar day as
dateWitnessA, every other field different. -/
def dateWitnessB : PyDatetime := ⟨2022, 5, 7, 23, 59, 59, 999999, some "UTC"⟩

/-- Witness for C1 at the concrete solar events and date. -/
theorem c1_gradient_97_entries_witness :
    ∃ l, get_colors_by_time sunOfWitness dateWitnessA = some l ∧ l.length = 97 ∧
      l.map Prod.fst = sampleIdxs :=
  c1_gradient_97_entries sunOfWitness dateWitnessA (by decide) (by decide)

/-- Witness for C7 at the concrete solar events and date. -/
theorem c7_first_entry_night_color_witness :
    ∃ l, get_colors_by_time sunOfWitness dateWitnessA = some l ∧ l.head? = some (0, darkness) :=
  c7_first_entry_night_color sunOfWitness dateWitnessA (by decide) (by decide)

/-- Witness for C9: two datetimes of 2022-05-07 differing in every
time-of-day field and in tzinfo give the same gradient map. -/
theorem c9_gradient_depends_only_on_day_witness :
    get_colors_by_time sunOfWitness dateWitnessA = get_colors_by_time sunOfWitness dateWitnessB :=
  c9_gradient_depends_only_on_day sunOfWitness dateWitnessA dateWitnessB rfl rfl rfl

/-! ### Helper lemmas: ingestion -/

theorem get_number_eq (props : List Property) (key : String) :
    get_number props key =
      match keyValues props key with
      | [nb] => str_to_int nb
      | _ => none := rfl

theorem get_number_none_of_bad {props : List Property} {key : String}
    (h : keyValues props key = [] ∨ ∃ v ∈ keyValues props key, str_to_int v = none) :
    get_number props key = none := by
  rw [get_number_eq]
  rcases hkv : keyValues props key with _ | ⟨a, l⟩
  · rfl
  · rcases l with _ | ⟨b, l2⟩
    · rcases h with h | ⟨v, hv, hparse⟩
      · rw [hkv] at h; cases h
      · rw [hkv] at hv
        simp at hv
        subst hv
        exact hparse
    · rfl

/-- The number get_number extracts for a key, defaulting to 0 when it
raises; under the success hypotheses of C8 it is the unique parsed
value of the key. -/
def numOf (p : Place) (key : String) : Int := (get_number p.additionalProperties key).getD 0

theorem get_stations_success (t : String) (places : List Place) :
    (∀ p ∈ places, (get_number p.additionalProperties "NbBikes").isSome
      ∧ (get_number p.additionalProperties "NbEmptyDocks").isSome
      ∧ (get_number p.additionalProperties "NbDocks").isSome) →
    get_stations t places = some (places.map fun p =>
      (t, p.id, p.lat, p.lon, numOf p "NbBikes", numOf p "NbEmptyDocks", numOf p "NbDocks")) := by
  induction places with
  | nil => intro _; rfl
  | cons q rest ih =>
    intro h
    obtain ⟨hb, he, hd⟩ := h q (List.mem_cons_self _ _)
    obtain ⟨b, hbv⟩ := Option.isSome_iff_exists.mp hb
    obtain ⟨e, hev⟩ := Option.isSome_iff_exists.mp he
    obtain ⟨dk, hdv⟩ := Option.isSome_iff_exists.mp hd
    have hrest := ih fun p hp => h p (List.mem_cons_of_mem _ hp)
    simp [get_stations, hbv, hev, hdv, hrest, numOf]

theorem get_stations_fail (t : String) {p : Place}
    (hfail : get_number p.additionalProperties "NbBikes" = none
      ∨ get_number p.additionalProperties "NbEmptyDocks" = none
      ∨ get_number p.additionalProperties "NbDocks" = none) :
    ∀ places : List Place, p ∈ places → get_stations t places = none := by
  intro places
  induction places with
  | nil => intro h; cases h
  | cons q rest ih =>
    intro hp
    rcases hb : get_number q.additionalProperties "NbBikes" with _ | b
    · simp [get_stations, hb]
    · rcases he : get_number q.additionalProperties "NbEmptyDocks" with _ | e
      · simp [get_stations, hb, he]
      · rcases hd : get_number q.additionalProperties "NbDocks" with _ | dk
        · simp [get_stations, hb, he, hd]
        · rcases List.mem_cons.mp hp with rfl | hp2
          · rcases hfail with h | h | h
            · rw [hb] at h; cases h
            · rw [he] at h; cases h
            · rw [hd] at h; cases h
          · simp [get_stations, hb, he, hd, ih hp2]

/-- A key is missing among the properties of a station, or some value
recorded under it is not numeric. -/
def missingOrNonNumeric (p : Place) (key : String) : Prop :=
  keyValues p.additionalProperties key = []
  ∨ ∃ v ∈ keyValues p.additionalProperties key, str_to_int v = none

/-! ### The ingestion claims -/

/-- C8.  When every station carries the three numeric properties
NbBikes, NbEmptyDocks and NbDocks, ingestion succeeds and each output
row holds exactly the numbers parsed from those three properties
(besides the timestamp, id and coordinates); and if for any station any
of the three keys is missing or carries a non-numeric value, the whole
call raises. -/
theorem c8_ingestion_three_keys (t : String) (places : List Place) :
    ((∀ p ∈ places, (get_number p.additionalProperties "NbBikes").isSome
        ∧ (get_number p.additionalProperties "NbEmptyDocks").isSome
        ∧ (get_number p.additionalProperties "NbDocks").isSome) →
      get_stations t places = some (places.map fun p =>
        (t, p.id, p.lat, p.lon, numOf p "NbBikes", numOf p "NbEmptyDocks", numOf p "NbDocks")))
    ∧ ∀ p ∈ places,
        (missingOrNonNumeric p "NbBikes" ∨ missingOrNonNumeric p "NbEmptyDocks"
          ∨ missingOrNonNumeric p "NbDocks") →
        get_stations t places = none := by
  refine ⟨get_stations_success t places, ?_⟩
  intro p hp h
  refine get_stations_fail t ?_ places hp
  rcases h with h | h | h
  · exact Or.inl (get_number_none_of_bad h)
  · exact Or.inr (Or.inl (get_number_none_of_bad h))
  · exact Or.inr (Or.inr (get_number_none_of_bad h))

/-- C10.  The unpacking in get_number fails not only for a missing key
but also whenever the key occurs two or more times among a station's
properties; it returns a value only when the key occurs exactly
once. -/
theorem c10_get_number_unique_key (props : List Property) (key : String) :
    (2 ≤ (keyValues props key).length → get_number props key = none)
    ∧ ∀ n : Int, get_number props key = some n → (keyValues props key).length = 1 := by
  constructor
  · intro h2
    rw [get_number_eq]
    rcases hkv : keyValues props key with _ | ⟨a, l⟩
    · rfl
    · rcases l with _ | ⟨b, l2⟩
      · rw [hkv] at h2; simp at h2
      · rfl
  · intro n hn
    rw [get_number_eq] at hn
    rcases hkv : keyValues props key with _ | ⟨a, l⟩
    · rw [hkv] at hn; cases hn
    · rcases l with _ | ⟨b, l2⟩
      · rfl
      · rw [hkv] at hn; cases hn

end LondonCycles
